import Mathlib

/-!
A shallow embedding of the TPC-H analytics dashboard (`TPC_daesang.py`).

The core of the program is `load_filtered_data(_selected_regions, start_date, end_date)`:
it builds a filtered base relation (orders in the date interval, joined through
customer → nation → region, then filtered by region-name membership) and derives
eight aggregates from it.  The presentation layer guards the pipeline call with
`len(date_range) == 2 and selected_regions` and otherwise shows a prompt.

Tables are lists of rows; dates are (year, month, day) triples of integers
ordered lexicographically; prices are integers (fixed-point amounts); SQL
aggregates over an empty relation yield `none` (NULL) where the warehouse would.
`GROUP BY` is modelled as the deduplicated list of keys paired with the filter
of the rows at each key; `ORDER BY` is modelled with `List.insertionSort`;
`LIMIT n` with `List.take n`.  The `LINEITEM` table is loaded by the source but
never used by any query, so it carries no columns the pipeline reads.
-/

/-- A calendar date, as in the `O_ORDERDATE` column. -/
structure Date where
  year : Int
  month : Int
  day : Int
deriving DecidableEq, Repr

/-- Lexicographic order on dates, mirroring SQL date comparison. -/
def Date.le (a b : Date) : Prop :=
  a.year < b.year ∨ (a.year = b.year ∧
    (a.month < b.month ∨ (a.month = b.month ∧ a.day ≤ b.day)))

instance : DecidableRel Date.le := fun a b => by
  unfold Date.le; infer_instance

/-- Strict order on dates: `a` is strictly before `b`. -/
def Date.lt (a b : Date) : Prop := ¬ Date.le b a

instance : DecidableRel Date.lt := fun a b => by
  unfold Date.lt; infer_instance

theorem Date.le_total (a b : Date) : Date.le a b ∨ Date.le b a := by
  obtain ⟨ay, am, ad⟩ := a; obtain ⟨by', bm, bd⟩ := b
  unfold Date.le; dsimp only; omega

theorem Date.le_trans {a b c : Date} (h1 : Date.le a b) (h2 : Date.le b c) :
    Date.le a c := by
  obtain ⟨ay, am, ad⟩ := a; obtain ⟨by', bm, bd⟩ := b; obtain ⟨cy, cm, cd⟩ := c
  unfold Date.le at *; dsimp only at *; omega

/-- Model of the SQL month truncation `date_trunc`: the first day of the month of `d`. -/
def date_trunc_month (d : Date) : Date := ⟨d.year, d.month, 1⟩

/-- Lexicographic comparison of character lists by code point, as SQL `ORDER BY`
compares the string column values here (all labels are ASCII). -/
def chars_leb : List Char → List Char → Bool
  | [], _ => true
  | _ :: _, [] => false
  | a :: as, b :: bs =>
      if a.toNat < b.toNat then true
      else if b.toNat < a.toNat then false
      else chars_leb as bs

/-- Lexicographic order on strings (by code point). -/
def str_le (a b : String) : Prop := chars_leb a.data b.data = true

instance : DecidableRel str_le := fun a b => by
  unfold str_le; infer_instance

theorem chars_leb_total : ∀ (a b : List Char), chars_leb a b = true ∨ chars_leb b a = true := by
  intro a
  induction a with
  | nil => intro b; left; rfl
  | cons x as ih =>
    intro b
    cases b with
    | nil => right; rfl
    | cons y bs =>
      by_cases hxy : x.toNat < y.toNat
      · left; simp [chars_leb, hxy]
      · by_cases hyx : y.toNat < x.toNat
        · right; simp [chars_leb, hyx]
        · rcases ih bs with h | h
          · left; simp [chars_leb, hxy, hyx, h]
          · right; simp [chars_leb, hxy, hyx, h]

theorem chars_leb_trans : ∀ (a b c : List Char),
    chars_leb a b = true → chars_leb b c = true → chars_leb a c = true := by
  intro a
  induction a with
  | nil => intro b c _ _; rfl
  | cons x as ih =>
    intro b c hab hbc
    cases b with
    | nil => simp [chars_leb] at hab
    | cons y bs =>
      cases c with
      | nil => simp [chars_leb] at hbc
      | cons z cs =>
        simp only [chars_leb] at hab hbc ⊢
        by_cases hxy : x.toNat < y.toNat
        · by_cases hyz : y.toNat < z.toNat
          · have hxz : x.toNat < z.toNat := by omega
            simp [hxz]
          · by_cases hzy : z.toNat < y.toNat
            · rw [if_neg hyz, if_pos hzy] at hbc; exact absurd hbc (by simp)
            · have hxz : x.toNat < z.toNat := by omega
              simp [hxz]
        · by_cases hyx : y.toNat < x.toNat
          · rw [if_neg hxy, if_pos hyx] at hab; exact absurd hab (by simp)
          · by_cases hyz : y.toNat < z.toNat
            · have hxz : x.toNat < z.toNat := by omega
              simp [hxz]
            · by_cases hzy : z.toNat < y.toNat
              · rw [if_neg hyz, if_pos hzy] at hbc; exact absurd hbc (by simp)
              · have hxz : ¬ x.toNat < z.toNat := by omega
                have hzx : ¬ z.toNat < x.toNat := by omega
                rw [if_neg hxy, if_neg hyx] at hab
                rw [if_neg hyz, if_neg hzy] at hbc
                rw [if_neg hxz, if_neg hzx]
                exact ih bs cs hab hbc

theorem str_le_total (a b : String) : str_le a b ∨ str_le b a :=
  chars_leb_total a.data b.data

theorem str_le_trans {a b c : String} (h1 : str_le a b) (h2 : str_le b c) : str_le a c :=
  chars_leb_trans a.data b.data c.data h1 h2

/-- A row of `SNOWFLAKE_SAMPLE_DATA.TPCH_SF1.ORDERS` (the columns the program reads). -/
structure OrderRow where
  o_orderkey : Int
  o_custkey : Int
  o_orderdate : Date
  o_totalprice : Int
  o_orderpriority : String
deriving DecidableEq, Repr

/-- A row of `CUSTOMER` (the columns the program reads). -/
structure CustomerRow where
  c_custkey : Int
  c_nationkey : Int
  c_mktsegment : String
deriving DecidableEq, Repr

/-- A row of `NATION` (the columns the program reads). -/
structure NationRow where
  n_nationkey : Int
  n_regionkey : Int
  n_name : String
deriving DecidableEq, Repr

/-- A row of `REGION` (the columns the program reads). -/
structure RegionRow where
  r_regionkey : Int
  r_name : String
deriving DecidableEq, Repr

/-- The five tables `load_filtered_data` opens.  `LINEITEM` is opened but never
queried, so it is represented only by its row count. -/
structure Database where
  orders : List OrderRow
  customer : List CustomerRow
  nation : List NationRow
  region : List RegionRow
  lineitem_rows : Nat
deriving Repr

/-- A row of the joined base relation: every column any aggregate reads. -/
structure BaseRow where
  o_orderkey : Int
  o_orderdate : Date
  o_totalprice : Int
  o_orderpriority : String
  c_mktsegment : String
  n_name : String
  r_name : String
deriving DecidableEq, Repr

/-- The inner-join chain of `base_df` before the region-name filter:
orders filtered to the date interval, joined to customer on `O_CUSTKEY =
C_CUSTKEY`, to nation on `C_NATIONKEY = N_NATIONKEY`, and to region on
`N_REGIONKEY = R_REGIONKEY`. -/
def joined_relation (db : Database) (start_date end_date : Date) : List BaseRow :=
  (db.orders.filter
      (fun o => Date.le start_date o.o_orderdate ∧ Date.le o.o_orderdate end_date)).flatMap
    fun o =>
      (db.customer.filter (fun c => o.o_custkey = c.c_custkey)).flatMap fun c =>
        (db.nation.filter (fun n => c.c_nationkey = n.n_nationkey)).flatMap fun n =>
          (db.region.filter (fun r => n.n_regionkey = r.r_regionkey)).map fun r =>
            { o_orderkey := o.o_orderkey
              o_orderdate := o.o_orderdate
              o_totalprice := o.o_totalprice
              o_orderpriority := o.o_orderpriority
              c_mktsegment := c.c_mktsegment
              n_name := n.n_name
              r_name := r.r_name }

/-- Relation `base_df`: the join chain followed by the region-name membership filter
`.filter(F.col("R_NAME").isin(_selected_regions))`. -/
def base_relation (db : Database) (selected_regions : List String)
    (start_date end_date : Date) : List BaseRow :=
  (joined_relation db start_date end_date).filter
    (fun row => row.r_name ∈ selected_regions)

/-- Model of SQL `SUM` over a column: NULL (`none`) on an empty input. -/
def sql_sum (l : List Int) : Option Int :=
  if l.isEmpty then none else some l.sum

/-- Model of SQL `AVG` over a column: NULL on an empty input, else the rational mean. -/
def sql_avg (l : List Int) : Option Rat :=
  if l.isEmpty then none else some ((l.sum : Rat) / (l.length : Rat))

/-- A row of the `monthly_revenue` result table. -/
structure MonthlyRow where
  year_month : Date
  revenue : Int
deriving DecidableEq, Repr

/-- A row of the `region_revenue` result table. -/
structure RegionRevRow where
  r_name : String
  revenue : Int
  orders : Nat
deriving DecidableEq, Repr

/-- A row of the `segment_analysis` result table. -/
structure SegmentRow where
  c_mktsegment : String
  revenue : Int
  orders : Nat
  avg_order : Option Rat
deriving DecidableEq, Repr

/-- A row of the `priority_analysis` result table. -/
structure PriorityRow where
  o_orderpriority : String
  orders : Nat
  revenue : Int
deriving DecidableEq, Repr

/-- A row of the `nation_revenue` result table. -/
structure NationRevRow where
  n_name : String
  r_name : String
  revenue : Int
deriving DecidableEq, Repr

/-- The distinct group keys of a `GROUP BY`, with the rows of each group. -/
def group_rows {α κ : Type} [DecidableEq κ] (key : α → κ) (rows : List α) :
    List (κ × List α) :=
  ((rows.map key).dedup).map fun k => (k, rows.filter (fun r => key r = k))

/-- Table `monthly_revenue`: group by the month truncation of `O_ORDERDATE`, sum
`O_TOTALPRICE`, order by the month ascending. -/
def monthly_revenue (base : List BaseRow) : List MonthlyRow :=
  List.insertionSort (fun a b => Date.le a.year_month b.year_month)
    ((group_rows (fun r => date_trunc_month r.o_orderdate) base).map fun g =>
      { year_month := g.1, revenue := (g.2.map (fun r => r.o_totalprice)).sum })

/-- Table `region_revenue`: group by `R_NAME`, sum `O_TOTALPRICE`, count `O_ORDERKEY`. -/
def region_revenue (base : List BaseRow) : List RegionRevRow :=
  (group_rows (fun r => r.r_name) base).map fun g =>
    { r_name := g.1
      revenue := (g.2.map (fun r => r.o_totalprice)).sum
      orders := g.2.length }

/-- Table `segment_analysis`: group by `C_MKTSEGMENT`, sum, count, average. -/
def segment_analysis (base : List BaseRow) : List SegmentRow :=
  (group_rows (fun r => r.c_mktsegment) base).map fun g =>
    { c_mktsegment := g.1
      revenue := (g.2.map (fun r => r.o_totalprice)).sum
      orders := g.2.length
      avg_order := sql_avg (g.2.map (fun r => r.o_totalprice)) }

/-- Table `priority_analysis`: group by `O_ORDERPRIORITY`, count, sum, order by the
priority label ascending (string order). -/
def priority_analysis (base : List BaseRow) : List PriorityRow :=
  List.insertionSort (fun a b => str_le a.o_orderpriority b.o_orderpriority)
    ((group_rows (fun r => r.o_orderpriority) base).map fun g =>
      { o_orderpriority := g.1
        orders := g.2.length
        revenue := (g.2.map (fun r => r.o_totalprice)).sum })

/-- Table `nation_revenue`: group by `(N_NAME, R_NAME)`, sum `O_TOTALPRICE`, order by
revenue descending, limit 10. -/
def nation_revenue (base : List BaseRow) : List NationRevRow :=
  List.take 10
    (List.insertionSort (fun a b => b.revenue ≤ a.revenue)
      ((group_rows (fun r => (r.n_name, r.r_name)) base).map fun g =>
        { n_name := g.1.1
          r_name := g.1.2
          revenue := (g.2.map (fun r => r.o_totalprice)).sum }))

/-- The record `load_filtered_data` returns. -/
structure PipelineResult where
  total_revenue : Option Int
  total_orders : Nat
  avg_order_value : Option Rat
  monthly_revenue : List MonthlyRow
  region_revenue : List RegionRevRow
  segment_analysis : List SegmentRow
  priority_analysis : List PriorityRow
  nation_revenue : List NationRevRow
deriving DecidableEq, Repr

/-- The eight aggregates computed from one base relation. -/
def aggregates (base : List BaseRow) : PipelineResult :=
  { total_revenue := sql_sum (base.map (fun r => r.o_totalprice))
    total_orders := base.length
    avg_order_value := sql_avg (base.map (fun r => r.o_totalprice))
    monthly_revenue := monthly_revenue base
    region_revenue := region_revenue base
    segment_analysis := segment_analysis base
    priority_analysis := priority_analysis base
    nation_revenue := nation_revenue base }

/-- Pipeline `load_filtered_data`: build the base relation and bundle the eight aggregates. -/
def load_filtered_data (db : Database) (selected_regions : List String)
    (start_date end_date : Date) : PipelineResult :=
  aggregates (base_relation db selected_regions start_date end_date)

/-! ### Group-by summation lemmas -/

theorem sum_map_add_distrib {α M : Type} [AddCommMonoid M] (l : List α) (f g : α → M) :
    (l.map (fun x => f x + g x)).sum = (l.map f).sum + (l.map g).sum := by
  induction l with
  | nil => simp
  | cons a t ih => simp [ih, add_add_add_comm]

theorem sum_map_single {κ M : Type} [DecidableEq κ] [AddCommMonoid M]
    (a : κ) (m : M) :
    ∀ (l : List κ), l.Nodup → a ∈ l →
      (l.map (fun k => if a = k then m else 0)).sum = m := by
  intro l
  induction l with
  | nil => intro _ h; cases h
  | cons b t ih =>
    intro hnd hmem
    rcases List.mem_cons.mp hmem with rfl | hat
    · have hnt : a ∉ t := (List.nodup_cons.mp hnd).1
      have hz : (t.map (fun k => if a = k then m else 0)).sum = 0 := by
        apply List.sum_eq_zero
        intro x hx
        rcases List.mem_map.mp hx with ⟨k, hk, rfl⟩
        have hne : a ≠ k := fun h => hnt (h ▸ hk)
        simp [hne]
      simp [hz]
    · have hab : a ≠ b := by
        rintro rfl; exact (List.nodup_cons.mp hnd).1 hat
      simp only [List.map_cons, List.sum_cons, if_neg hab]
      rw [ih (List.nodup_cons.mp hnd).2 hat, zero_add]

theorem sum_map_one {α : Type} (l : List α) : (l.map (fun _ => (1 : Nat))).sum = l.length := by
  induction l with
  | nil => rfl
  | cons a t ih => simp [ih, Nat.add_comm]

/-- Summing an aggregated value over all groups of a `GROUP BY` recovers the sum
over the whole relation. -/
theorem sum_over_groups {α κ M : Type} [DecidableEq κ] [AddCommMonoid M]
    (key : α → κ) (v : α → M) :
    ∀ (rows : List α),
      (((rows.map key).dedup).map
        (fun k => ((rows.filter (fun r => key r = k)).map v).sum)).sum
      = (rows.map v).sum := by
  intro rows
  induction rows with
  | nil => simp
  | cons a t ih =>
    have hsplit : ∀ k : κ,
        (((a :: t).filter (fun r => key r = k)).map v).sum
          = (if key a = k then v a else 0)
            + ((t.filter (fun r => key r = k)).map v).sum := by
      intro k
      rw [List.filter_cons]
      by_cases h : key a = k
      · simp [h]
      · simp [h]
    rw [List.map_cons]
    by_cases hmem : key a ∈ t.map key
    · rw [List.dedup_cons_of_mem hmem]
      rw [List.map_congr_left (fun k _ => hsplit k), sum_map_add_distrib]
      rw [ih, sum_map_single (key a) (v a) _ (List.nodup_dedup _) (List.mem_dedup.mpr hmem)]
      simp
    · rw [List.dedup_cons_of_not_mem hmem]
      rw [List.map_cons, List.sum_cons, hsplit (key a)]
      have hnil : t.filter (fun r => key r = key a) = [] := by
        rw [List.filter_eq_nil_iff]
        intro r hr
        simp only [decide_eq_true_eq]
        intro heq
        exact hmem (List.mem_map.mpr ⟨r, hr, heq⟩)
      have htail :
          (((t.map key).dedup).map
            (fun k => (((a :: t).filter (fun r => key r = k)).map v).sum)).sum
          = (((t.map key).dedup).map
            (fun k => ((t.filter (fun r => key r = k)).map v).sum)).sum := by
        apply congrArg
        apply List.map_congr_left
        intro k hk
        rw [hsplit k]
        have hne : key a ≠ k := by
          intro h
          exact hmem (h ▸ List.mem_dedup.mp hk)
        simp [hne]
      rw [htail, ih, hnil]
      simp

/-- Counting group sizes over all groups of a `GROUP BY` recovers the row count
of the whole relation. -/
theorem count_over_groups {α κ : Type} [DecidableEq κ] (key : α → κ) (rows : List α) :
    (((rows.map key).dedup).map
      (fun k => (rows.filter (fun r => key r = k)).length)).sum = rows.length := by
  have h := sum_over_groups key (fun _ => (1 : Nat)) rows
  rw [sum_map_one] at h
  rw [← h]
  apply congrArg
  apply List.map_congr_left
  intro k _
  rw [sum_map_one]

theorem region_orders_sum (base : List BaseRow) :
    ((region_revenue base).map (fun r => r.orders)).sum = base.length := by
  unfold region_revenue group_rows
  rw [List.map_map, List.map_map]
  exact count_over_groups (fun r => r.r_name) base

theorem region_revenue_total (base : List BaseRow) :
    ((region_revenue base).map (fun r => r.revenue)).sum
      = (base.map (fun r => r.o_totalprice)).sum := by
  unfold region_revenue group_rows
  rw [List.map_map, List.map_map]
  exact sum_over_groups (fun r => r.r_name) (fun r => r.o_totalprice) base

/-- Every row of the base relation carries a selected region name. -/
theorem mem_base_relation_r_name {db : Database} {sel : List String} {s e : Date}
    {row : BaseRow} (h : row ∈ base_relation db sel s e) : row.r_name ∈ sel := by
  unfold base_relation at h
  have h2 := (List.mem_filter.mp h).2
  simpa using h2

/-! ### Witness data: a small concrete database exercising the pipeline -/

/-- A concrete database used to witness the claim theorems on explicit input:
two regions, three nations, three customers, four orders inside 1995. -/
def dbW : Database :=
  { orders :=
      [ { o_orderkey := 1, o_custkey := 10, o_orderdate := ⟨1995, 1, 3⟩,
          o_totalprice := 100, o_orderpriority := "1-URGENT" }
      , { o_orderkey := 2, o_custkey := 11, o_orderdate := ⟨1995, 2, 5⟩,
          o_totalprice := 200, o_orderpriority := "3-MEDIUM" }
      , { o_orderkey := 3, o_custkey := 10, o_orderdate := ⟨1995, 1, 20⟩,
          o_totalprice := 50, o_orderpriority := "2-HIGH" }
      , { o_orderkey := 4, o_custkey := 12, o_orderdate := ⟨1995, 3, 1⟩,
          o_totalprice := 300, o_orderpriority := "1-URGENT" } ]
    customer :=
      [ { c_custkey := 10, c_nationkey := 20, c_mktsegment := "BUILDING" }
      , { c_custkey := 11, c_nationkey := 21, c_mktsegment := "AUTOMOBILE" }
      , { c_custkey := 12, c_nationkey := 22, c_mktsegment := "MACHINERY" } ]
    nation :=
      [ { n_nationkey := 20, n_regionkey := 30, n_name := "JAPAN" }
      , { n_nationkey := 21, n_regionkey := 30, n_name := "CHINA" }
      , { n_nationkey := 22, n_regionkey := 31, n_name := "FRANCE" } ]
    region :=
      [ { r_regionkey := 30, r_name := "ASIA" }
      , { r_regionkey := 31, r_name := "EUROPE" } ]
    lineitem_rows := 0 }

/-- The witness filter selection: both regions, the whole of 1995. -/
def selW : List String := ["ASIA", "EUROPE"]

/-- Witness start date. -/
def sW : Date := ⟨1995, 1, 1⟩

/-- Witness end date. -/
def eW : Date := ⟨1995, 12, 31⟩

/-! ### C1 -/

/-- C1: for every valid filter selection (non-empty region set, start ≤ end),
the `total_orders` scalar equals the sum of the `ORDERS` column over all rows of
the `region_revenue` table of the same invocation. -/
theorem c1_total_orders_eq_region_orders_sum (db : Database) (sel : List String)
    (s e : Date) (hs : sel ≠ []) (hd : Date.le s e) :
    (load_filtered_data db sel s e).total_orders
      = (((load_filtered_data db sel s e).region_revenue).map (fun r => r.orders)).sum := by
  unfold load_filtered_data aggregates
  dsimp only
  rw [region_orders_sum]

/-- C1 witness: the theorem applied to the concrete database `dbW`. -/
theorem c1_witness :
    selW ≠ [] ∧ Date.le sW eW ∧
      (load_filtered_data dbW selW sW eW).total_orders
        = (((load_filtered_data dbW selW sW eW).region_revenue).map (fun r => r.orders)).sum :=
  ⟨by decide, by decide,
    c1_total_orders_eq_region_orders_sum dbW selW sW eW (by decide) (by decide)⟩

/-! ### C2 -/

/-- A database whose `REGION` table is populated but with no orders: a valid
filter selection over it produces an empty base relation. -/
def db_no_orders : Database :=
  { orders := []
    customer := []
    nation := []
    region := [ { r_regionkey := 30, r_name := "ASIA" } ]
    lineitem_rows := 0 }

/-- C2 counterexample: at the valid selection (regions = ["ASIA"], 1995-01-01 ≤
1995-12-31) over `db_no_orders`, the base relation is empty, so `total_revenue`
is NULL (`none`) while the `REVENUE` column of the empty `region_revenue` table
sums to `0`; the claimed equality fails. -/
theorem c2_counterexample :
    (["ASIA"] : List String) ≠ [] ∧ Date.le ⟨1995, 1, 1⟩ ⟨1995, 12, 31⟩ ∧
      ¬ ((load_filtered_data db_no_orders ["ASIA"] ⟨1995, 1, 1⟩ ⟨1995, 12, 31⟩).total_revenue
          = some ((((load_filtered_data db_no_orders ["ASIA"] ⟨1995, 1, 1⟩
              ⟨1995, 12, 31⟩).region_revenue).map (fun r => r.revenue)).sum)) := by
  refine ⟨by decide, by decide, ?_⟩
  decide

/-- C2 (amended): for every valid filter selection whose base relation is
non-empty, the sum of the `REVENUE` column over all rows of the
`region_revenue` table equals the `total_revenue` scalar of the same
invocation (on an empty base relation `total_revenue` is NULL instead). -/
theorem c2_total_revenue_eq_region_revenue_sum (db : Database) (sel : List String)
    (s e : Date) (hs : sel ≠ []) (hd : Date.le s e)
    (hne : base_relation db sel s e ≠ []) :
    (load_filtered_data db sel s e).total_revenue
      = some ((((load_filtered_data db sel s e).region_revenue).map
          (fun r => r.revenue)).sum) := by
  unfold load_filtered_data aggregates
  dsimp only
  rw [region_revenue_total]
  unfold sql_sum
  rw [if_neg]
  simp [hne]

/-- C2 witness: the amended theorem applied to the concrete database `dbW`. -/
theorem c2_witness :
    selW ≠ [] ∧ Date.le sW eW ∧ base_relation dbW selW sW eW ≠ [] ∧
      (load_filtered_data dbW selW sW eW).total_revenue
        = some ((((load_filtered_data dbW selW sW eW).region_revenue).map
            (fun r => r.revenue)).sum) :=
  ⟨by decide, by decide, by decide,
    c2_total_revenue_eq_region_revenue_sum dbW selW sW eW (by decide) (by decide) (by decide)⟩

/-! ### C3 -/

/-- A cache key: the `(tuple(selected_regions), str(start_date), str(end_date))`
argument triple of the `st.cache_data`-wrapped pipeline. -/
abbrev FilterKey := List String × Date × Date

/-- The `st.cache_data` store for `load_filtered_data`: previously computed
result bundles keyed by the argument triple. -/
abbrev Cache := List (FilterKey × PipelineResult)

/-- One call through the `st.cache_data` wrapper: return the cached bundle when
the key is present, otherwise run the pipeline and record the result.  The
returned cache is the only state the call touches. -/
def cached_load (db : Database) (cache : Cache) (key : FilterKey) :
    PipelineResult × Cache :=
  match cache.find? (fun entry => entry.1 = key) with
  | some entry => (entry.2, cache)
  | none =>
      let r := load_filtered_data db key.1 key.2.1 key.2.2
      (r, (key, r) :: cache)

/-- C3: invoking the pipeline twice with an identical filter key yields equal
result bundles, and the second invocation leaves the cache — the only state the
pipeline touches — unchanged. -/
theorem c3_cached_load_idempotent (db : Database) (cache : Cache) (key : FilterKey) :
    (cached_load db (cached_load db cache key).2 key).1 = (cached_load db cache key).1
    ∧ (cached_load db (cached_load db cache key).2 key).2 = (cached_load db cache key).2 := by
  unfold cached_load
  cases h : cache.find? (fun entry => entry.1 = key) with
  | some entry => simp [h]
  | none =>
    simp only [h]
    rw [List.find?_cons_of_pos]
    · exact ⟨rfl, rfl⟩
    · simp

/-! ### C4 -/

/-- A database on which two (nation, region) groups tie at revenue 100. -/
def db_tie : Database :=
  { orders :=
      [ { o_orderkey := 1, o_custkey := 10, o_orderdate := ⟨1995, 1, 3⟩,
          o_totalprice := 100, o_orderpriority := "1-URGENT" }
      , { o_orderkey := 2, o_custkey := 11, o_orderdate := ⟨1995, 1, 4⟩,
          o_totalprice := 100, o_orderpriority := "1-URGENT" } ]
    customer :=
      [ { c_custkey := 10, c_nationkey := 20, c_mktsegment := "BUILDING" }
      , { c_custkey := 11, c_nationkey := 21, c_mktsegment := "BUILDING" } ]
    nation :=
      [ { n_nationkey := 20, n_regionkey := 30, n_name := "JAPAN" }
      , { n_nationkey := 21, n_regionkey := 30, n_name := "CHINA" } ]
    region := [ { r_regionkey := 30, r_name := "ASIA" } ]
    lineitem_rows := 0 }

/-- C4 counterexample: at a valid selection over `db_tie`, the `nation_revenue`
table holds two rows with equal revenue, so its rows are not sorted *strictly*
descending by `REVENUE`. -/
theorem c4_counterexample :
    (["ASIA"] : List String) ≠ [] ∧ Date.le ⟨1995, 1, 1⟩ ⟨1995, 12, 31⟩ ∧
      ¬ List.Pairwise (fun a b => b.revenue < a.revenue)
          (load_filtered_data db_tie ["ASIA"] ⟨1995, 1, 1⟩ ⟨1995, 12, 31⟩).nation_revenue := by
  refine ⟨by decide, by decide, ?_⟩
  decide

/-- C4 (amended): for every valid filter selection, the `nation_revenue` table
has at most 10 rows and its rows are sorted descending (non-increasing, ties
permitted) by the `REVENUE` column. -/
theorem c4_nation_revenue_top10_sorted (db : Database) (sel : List String)
    (s e : Date) (hs : sel ≠ []) (hd : Date.le s e) :
    (load_filtered_data db sel s e).nation_revenue.length ≤ 10
    ∧ List.Pairwise (fun a b => b.revenue ≤ a.revenue)
        (load_filtered_data db sel s e).nation_revenue := by
  unfold load_filtered_data aggregates nation_revenue
  dsimp only
  constructor
  · rw [List.length_take]
    exact min_le_left _ _
  · apply List.Pairwise.sublist (List.take_sublist _ _)
    exact @List.sorted_insertionSort NationRevRow
      (fun a b => b.revenue ≤ a.revenue) (fun a b => inferInstance)
      ⟨fun a b => le_total b.revenue a.revenue⟩
      ⟨fun a b c hab hbc => le_trans hbc hab⟩ _

/-- C4 witness: the amended theorem applied to the concrete database `dbW`. -/
theorem c4_witness :
    selW ≠ [] ∧ Date.le sW eW ∧
      ((load_filtered_data dbW selW sW eW).nation_revenue.length ≤ 10
        ∧ List.Pairwise (fun a b => b.revenue ≤ a.revenue)
            (load_filtered_data dbW selW sW eW).nation_revenue) :=
  ⟨by decide, by decide,
    c4_nation_revenue_top10_sorted dbW selW sW eW (by decide) (by decide)⟩

/-! ### C5 -/

/-- C5: for every valid filter selection, the rows of the `monthly_revenue`
table are ordered with the `YEAR_MONTH` column non-decreasing from first row to
last. -/
theorem c5_monthly_revenue_sorted (db : Database) (sel : List String)
    (s e : Date) (hs : sel ≠ []) (hd : Date.le s e) :
    List.Pairwise (fun a b => Date.le a.year_month b.year_month)
      (load_filtered_data db sel s e).monthly_revenue := by
  unfold load_filtered_data aggregates monthly_revenue
  dsimp only
  exact @List.sorted_insertionSort MonthlyRow
    (fun a b => Date.le a.year_month b.year_month) (fun a b => inferInstance)
    ⟨fun a b => Date.le_total a.year_month b.year_month⟩
    ⟨fun a b c hab hbc => Date.le_trans hab hbc⟩ _

/-- C5 witness: the theorem applied to the concrete database `dbW`. -/
theorem c5_witness :
    selW ≠ [] ∧ Date.le sW eW ∧
      List.Pairwise (fun a b => Date.le a.year_month b.year_month)
        (load_filtered_data dbW selW sW eW).monthly_revenue :=
  ⟨by decide, by decide, c5_monthly_revenue_sorted dbW selW sW eW (by decide) (by decide)⟩

/-! ### C6 -/

/-- C6: for every filter selection with a non-empty region set and an inverted
date range (end strictly before start), the pipeline raises no error — it is a
total function — the base relation is empty, and all eight aggregates return
zero rows or null scalars (`total_orders`, a count, returns 0). -/
theorem c6_inverted_range_empty (db : Database) (sel : List String) (s e : Date)
    (hs : sel ≠ []) (hinv : Date.lt e s) :
    base_relation db sel s e = []
    ∧ (load_filtered_data db sel s e).total_revenue = none
    ∧ (load_filtered_data db sel s e).total_orders = 0
    ∧ (load_filtered_data db sel s e).avg_order_value = none
    ∧ (load_filtered_data db sel s e).monthly_revenue = []
    ∧ (load_filtered_data db sel s e).region_revenue = []
    ∧ (load_filtered_data db sel s e).segment_analysis = []
    ∧ (load_filtered_data db sel s e).priority_analysis = []
    ∧ (load_filtered_data db sel s e).nation_revenue = [] := by
  have hbase : base_relation db sel s e = [] := by
    unfold base_relation joined_relation
    have horders : db.orders.filter
        (fun o => Date.le s o.o_orderdate ∧ Date.le o.o_orderdate e) = [] := by
      rw [List.filter_eq_nil_iff]
      intro o _
      simp only [decide_eq_true_eq, not_and]
      intro h1 h2
      exact hinv (Date.le_trans h1 h2)
    rw [horders]
    rfl
  refine ⟨hbase, ?_⟩
  unfold load_filtered_data
  rw [hbase]
  exact ⟨rfl, rfl, rfl, rfl, rfl, rfl, rfl, rfl⟩

/-- C6 witness: the theorem applied to `dbW` with the range 1995-01-02 down to
1995-01-01. -/
theorem c6_witness :
    selW ≠ [] ∧ Date.lt ⟨1995, 1, 1⟩ ⟨1995, 1, 2⟩ ∧
      (base_relation dbW selW ⟨1995, 1, 2⟩ ⟨1995, 1, 1⟩ = []
        ∧ (load_filtered_data dbW selW ⟨1995, 1, 2⟩ ⟨1995, 1, 1⟩).total_revenue = none
        ∧ (load_filtered_data dbW selW ⟨1995, 1, 2⟩ ⟨1995, 1, 1⟩).total_orders = 0
        ∧ (load_filtered_data dbW selW ⟨1995, 1, 2⟩ ⟨1995, 1, 1⟩).avg_order_value = none
        ∧ (load_filtered_data dbW selW ⟨1995, 1, 2⟩ ⟨1995, 1, 1⟩).monthly_revenue = []
        ∧ (load_filtered_data dbW selW ⟨1995, 1, 2⟩ ⟨1995, 1, 1⟩).region_revenue = []
        ∧ (load_filtered_data dbW selW ⟨1995, 1, 2⟩ ⟨1995, 1, 1⟩).segment_analysis = []
        ∧ (load_filtered_data dbW selW ⟨1995, 1, 2⟩ ⟨1995, 1, 1⟩).priority_analysis = []
        ∧ (load_filtered_data dbW selW ⟨1995, 1, 2⟩ ⟨1995, 1, 1⟩).nation_revenue = []) :=
  ⟨by decide, by decide,
    c6_inverted_range_empty dbW selW ⟨1995, 1, 2⟩ ⟨1995, 1, 1⟩ (by decide) (by decide)⟩

/-! ### C7 -/

/-- The two outcomes of the presentation layer: render the dashboard from one
pipeline invocation, or show the prompt without issuing any query. -/
inductive RenderOutcome where
  | dashboard (data : PipelineResult)
  | prompt
deriving DecidableEq, Repr

/-- The single branch of the presentation layer,
`if len(date_range) == 2 and selected_regions:` — on success it invokes the
pipeline on `date_range[0]`, `date_range[1]`; otherwise it shows the prompt
(`st.warning`). -/
def render (db : Database) (selected_regions : List String)
    (date_range : List Date) : RenderOutcome :=
  if date_range.length = 2 ∧ selected_regions ≠ [] then
    RenderOutcome.dashboard
      (load_filtered_data db selected_regions
        (date_range.getD 0 ⟨0, 0, 0⟩) (date_range.getD 1 ⟨0, 0, 0⟩))
  else RenderOutcome.prompt

/-- C7: the presentation layer shows the prompt — invoking no pipeline query —
exactly when the region set is empty or the date range does not contain both
endpoints; this is its only branch. -/
theorem c7_prompt_iff (db : Database) (sel : List String) (dr : List Date) :
    render db sel dr = RenderOutcome.prompt ↔ (sel = [] ∨ dr.length ≠ 2) := by
  unfold render
  by_cases h : dr.length = 2 ∧ sel ≠ []
  · rw [if_pos h]
    constructor
    · intro hctr
      exact absurd hctr (by simp)
    · intro hor
      rcases hor with h1 | h2
      · exact absurd h1 h.2
      · exact absurd h.1 h2
  · rw [if_neg h]
    constructor
    · intro _
      by_cases hlen : dr.length = 2
      · left
        by_contra hne
        exact h ⟨hlen, hne⟩
      · right; exact hlen
    · intro _; rfl

/-! ### C8 -/

theorem priority_analysis_keys (base : List BaseRow) :
    ((priority_analysis base).map (fun r => r.o_orderpriority)).Perm
      ((base.map (fun r => r.o_orderpriority)).dedup) := by
  unfold priority_analysis group_rows
  rw [List.map_map]
  have hperm := (List.perm_insertionSort
      (fun a b : PriorityRow => str_le a.o_orderpriority b.o_orderpriority)
      (((base.map (fun r => r.o_orderpriority)).dedup).map
        (fun k => ({ o_orderpriority := k,
                     orders := (base.filter (fun r => r.o_orderpriority = k)).length,
                     revenue := ((base.filter (fun r => r.o_orderpriority = k)).map
                       (fun r => r.o_totalprice)).sum } : PriorityRow)))).map
      (fun r : PriorityRow => r.o_orderpriority)
  refine List.Perm.trans hperm ?_
  rw [List.map_map]
  have hid : (((base.map (fun r => r.o_orderpriority)).dedup).map
      ((fun r : PriorityRow => r.o_orderpriority) ∘
        (fun k => ({ o_orderpriority := k,
                     orders := (base.filter (fun r => r.o_orderpriority = k)).length,
                     revenue := ((base.filter (fun r => r.o_orderpriority = k)).map
                       (fun r => r.o_totalprice)).sum } : PriorityRow))))
      = ((base.map (fun r => r.o_orderpriority)).dedup).map (fun k => k) :=
    List.map_congr_left (fun k _ => rfl)
  rw [hid, List.map_id']

theorem priority_analysis_rows (base : List BaseRow) :
    ∀ row ∈ priority_analysis base,
      row.orders = (base.filter (fun r => r.o_orderpriority = row.o_orderpriority)).length
      ∧ row.revenue = ((base.filter (fun r => r.o_orderpriority = row.o_orderpriority)).map
          (fun r => r.o_totalprice)).sum := by
  intro row hrow
  unfold priority_analysis group_rows at hrow
  rw [List.mem_insertionSort, List.map_map] at hrow
  rcases List.mem_map.mp hrow with ⟨k, _, rfl⟩
  exact ⟨rfl, rfl⟩

theorem priority_analysis_sorted (base : List BaseRow) :
    List.Pairwise (fun a b => str_le a.o_orderpriority b.o_orderpriority)
      (priority_analysis base) := by
  unfold priority_analysis
  exact @List.sorted_insertionSort PriorityRow
    (fun a b => str_le a.o_orderpriority b.o_orderpriority) (fun a b => inferInstance)
    ⟨fun a b => str_le_total a.o_orderpriority b.o_orderpriority⟩
    ⟨fun a b c hab hbc => str_le_trans hab hbc⟩ _

/-- C8: for every valid filter selection, the `priority_analysis` table has one
row per distinct order-priority label of the base relation, each row carrying
the order count and revenue sum of its group, and its rows are ordered
ascending by the lexical (code-point) order of the priority label. -/
theorem c8_priority_analysis (db : Database) (sel : List String) (s e : Date)
    (hs : sel ≠ []) (hd : Date.le s e) :
    (((load_filtered_data db sel s e).priority_analysis).map
        (fun r => r.o_orderpriority)).Perm
      (((base_relation db sel s e).map (fun r => r.o_orderpriority)).dedup)
    ∧ (∀ row ∈ (load_filtered_data db sel s e).priority_analysis,
        row.orders = ((base_relation db sel s e).filter
            (fun r => r.o_orderpriority = row.o_orderpriority)).length
        ∧ row.revenue = (((base_relation db sel s e).filter
            (fun r => r.o_orderpriority = row.o_orderpriority)).map
              (fun r => r.o_totalprice)).sum)
    ∧ List.Pairwise (fun a b => str_le a.o_orderpriority b.o_orderpriority)
        (load_filtered_data db sel s e).priority_analysis :=
  ⟨priority_analysis_keys (base_relation db sel s e),
   priority_analysis_rows (base_relation db sel s e),
   priority_analysis_sorted (base_relation db sel s e)⟩

/-- C8 witness: the theorem applied to the concrete database `dbW`. -/
theorem c8_witness :
    selW ≠ [] ∧ Date.le sW eW ∧
      ((((load_filtered_data dbW selW sW eW).priority_analysis).map
          (fun r => r.o_orderpriority)).Perm
        (((base_relation dbW selW sW eW).map (fun r => r.o_orderpriority)).dedup)
      ∧ (∀ row ∈ (load_filtered_data dbW selW sW eW).priority_analysis,
          row.orders = ((base_relation dbW selW sW eW).filter
              (fun r => r.o_orderpriority = row.o_orderpriority)).length
          ∧ row.revenue = (((base_relation dbW selW sW eW).filter
              (fun r => r.o_orderpriority = row.o_orderpriority)).map
                (fun r => r.o_totalprice)).sum)
      ∧ List.Pairwise (fun a b => str_le a.o_orderpriority b.o_orderpriority)
          (load_filtered_data dbW selW sW eW).priority_analysis) :=
  ⟨by decide, by decide, c8_priority_analysis dbW selW sW eW (by decide) (by decide)⟩

/-! ### C9 -/

/-- C9: for every valid filter selection and every permutation of the selected
regions list, the pipeline returns an equal result bundle — the aggregates
depend only on the set of regions, not on their order (even though the cache is
keyed by the ordered tuple, so the two orderings occupy distinct cache
entries). -/
theorem c9_region_order_irrelevant (db : Database) (r1 r2 : List String)
    (s e : Date) (hperm : r1.Perm r2) (hs : r1 ≠ []) (hd : Date.le s e) :
    load_filtered_data db r1 s e = load_filtered_data db r2 s e := by
  unfold load_filtered_data
  have hbase : base_relation db r1 s e = base_relation db r2 s e := by
    unfold base_relation
    apply List.filter_congr
    intro row _
    have hmem : row.r_name ∈ r1 ↔ row.r_name ∈ r2 := hperm.mem_iff
    exact decide_eq_decide.mpr hmem
  rw [hbase]

/-- C9 witness: the theorem applied to `dbW` with the two orderings of the
region list. -/
theorem c9_witness :
    (["ASIA", "EUROPE"] : List String).Perm ["EUROPE", "ASIA"]
    ∧ (["ASIA", "EUROPE"] : List String) ≠ [] ∧ Date.le sW eW
    ∧ load_filtered_data dbW ["ASIA", "EUROPE"] sW eW
        = load_filtered_data dbW ["EUROPE", "ASIA"] sW eW :=
  ⟨by decide, by decide, by decide,
    c9_region_order_irrelevant dbW ["ASIA", "EUROPE"] ["EUROPE", "ASIA"] sW eW
      (by decide) (by decide) (by decide)⟩

/-! ### C10 -/

/-- C10: for every valid filter selection, every `R_NAME` value appearing in a
row of the `region_revenue` table or of the `nation_revenue` table is a member
of the selected region set — no aggregate row escapes the region filter. -/
theorem c10_r_name_mem_selected (db : Database) (sel : List String) (s e : Date)
    (hs : sel ≠ []) (hd : Date.le s e)
    (row : RegionRevRow) (nrow : NationRevRow)
    (hrow : row ∈ (load_filtered_data db sel s e).region_revenue)
    (hnrow : nrow ∈ (load_filtered_data db sel s e).nation_revenue) :
    row.r_name ∈ sel ∧ nrow.r_name ∈ sel := by
  constructor
  · have hrow' : row ∈ region_revenue (base_relation db sel s e) := hrow
    unfold region_revenue group_rows at hrow'
    rw [List.map_map] at hrow'
    rcases List.mem_map.mp hrow' with ⟨k, hk, rfl⟩
    rcases List.mem_map.mp (List.mem_dedup.mp hk) with ⟨b, hb, rfl⟩
    exact mem_base_relation_r_name hb
  · have hnrow' : nrow ∈ nation_revenue (base_relation db sel s e) := hnrow
    unfold nation_revenue group_rows at hnrow'
    have hnrow2 := (List.take_sublist _ _).subset hnrow'
    rw [List.mem_insertionSort, List.map_map] at hnrow2
    rcases List.mem_map.mp hnrow2 with ⟨k, hk, rfl⟩
    rcases List.mem_map.mp (List.mem_dedup.mp hk) with ⟨b, hb, hbk⟩
    subst hbk
    exact mem_base_relation_r_name hb

/-- C10 witness: the theorem applied to a concrete row of each table of the
`dbW` pipeline run. -/
theorem c10_witness :
    ({ r_name := "ASIA", revenue := 350, orders := 3 } : RegionRevRow).r_name ∈ selW
    ∧ ({ n_name := "FRANCE", r_name := "EUROPE", revenue := 300 } : NationRevRow).r_name ∈ selW :=
  c10_r_name_mem_selected dbW selW sW eW (by decide) (by decide)
    { r_name := "ASIA", revenue := 350, orders := 3 }
    { n_name := "FRANCE", r_name := "EUROPE", revenue := 300 }
    (by decide) (by decide)
